import Mathlib

/-!
Verification of the OwlPatches biquad filtering core (`BiquadFilter.hpp`):
a direct-form-1 cascaded biquad filter (`BiquadFilter`, delegating to the
CMSIS-DSP routines `arm_biquad_cascade_df1_init_f32` and
`arm_biquad_cascade_df1_f32`) and the 4x `Oversampler` built from two such
filters plus a scratch buffer.

Samples are modelled as exact rationals (`ℚ`).  The C `int` constructor
parameter is modelled as `Int` and converted with `uint32OfInt` at the
point where the code passes it to a `uint32_t` CMSIS parameter.
Indeterminate memory that the code leaves uninitialised — the `malloc`
contents of the state array and the `df1` instance structure before the
first `setCoefficents` call — is modelled by explicit parameters holding
whatever those bytes happen to contain.
-/

/-- One biquad stage's coefficients as stored in the coefficient array:
`{b0, b1, b2, -a1, -a2}`.  The fields `na1` and `na2` hold the negated
feedback coefficients exactly as the array stores them (see the comment in
`BiquadFilter.hpp`: "you need to put the values {B(0),B(1),B(2),-A(1),-A(2)}"). -/
structure Coeffs where
  b0 : ℚ
  b1 : ℚ
  b2 : ℚ
  na1 : ℚ
  na2 : ℚ
deriving DecidableEq

/-- One biquad stage's delay state `{x[n-1], x[n-2], y[n-1], y[n-2]}`,
matching the state layout documented in `BiquadFilter.hpp`. -/
structure St where
  x1 : ℚ
  x2 : ℚ
  y1 : ℚ
  y2 : ℚ
deriving DecidableEq

/-- The all-zero delay state of one stage. -/
def zeroSt : St := ⟨0, 0, 0, 0⟩

/-- One direct-form-1 step of a single stage on one sample:
`y = b0*x + b1*x1 + b2*x2 + (-a1)*y1 + (-a2)*y2`, after which the history
shifts (`x2 ← x1, x1 ← x, y2 ← y1, y1 ← y`). -/
def stageStep (c : Coeffs) (s : St) (x : ℚ) : ℚ × St :=
  let y := c.b0 * x + c.b1 * s.x1 + c.b2 * s.x2 + c.na1 * s.y1 + c.na2 * s.y2
  (y, ⟨x, s.x1, y, s.y1⟩)

/-- One stage filtering a whole block of samples, returning the output
block and the stage's final delay state. -/
def stageRun (c : Coeffs) : St → List ℚ → List ℚ × St
  | s, [] => ([], s)
  | s, x :: xs =>
    let r := stageRun c (stageStep c s x).2 xs
    ((stageStep c s x).1 :: r.1, r.2)

/-- Stage-major evaluation of the cascade, as the CMSIS block-processing
routine performs it: the first stage filters the whole block, its output
block is handed to the next stage, and so on.  Returns the final output
block and the per-stage final delay states (the coefficients are
untouched). -/
def stageMajorP : List (Coeffs × St) → List ℚ → List ℚ × List St
  | [], xs => (xs, [])
  | p :: rest, xs =>
    let r1 := stageRun p.1 p.2 xs
    let r2 := stageMajorP rest r1.1
    (r2.1, r1.2 :: r2.2)

/-- One sample travelling through the whole cascade in stage order:
stage i's output becomes stage i+1's input; every stage shifts its own
history exactly once.  Returns the last stage's output and the updated
per-stage states. -/
def sampleSt : List (Coeffs × St) → ℚ → ℚ × List St
  | [], x => (x, [])
  | p :: rest, x =>
    let r1 := stageStep p.1 p.2 x
    let r2 := sampleSt rest r1.1
    (r2.1, r1.2 :: r2.2)

/-- Sample-major evaluation of the cascade, exactly as the specification
words it: for each sample index in order, run all stages in cascade order
on that sample, then move to the next sample. -/
def sampleMajor : List (Coeffs × St) → List ℚ → List ℚ × List St
  | sl, [] => ([], sl.map Prod.snd)
  | sl, x :: xs =>
    let r1 := sampleSt sl x
    let r2 := sampleMajor ((sl.map Prod.fst).zip r1.2) xs
    (r1.1 :: r2.1, r2.2)

/-- Parse the flat coefficient array `{b10, b11, b12, a11, a12, b20, ...}`
into per-stage coefficient records, 5 values per stage. -/
def parseC : Nat → List ℚ → List Coeffs
  | 0, _ => []
  | n + 1, cs =>
    ⟨cs.getD 0 0, cs.getD 1 0, cs.getD 2 0, cs.getD 3 0, cs.getD 4 0⟩ ::
      parseC n (cs.drop 5)

/-- Parse the flat state array `{x[n-1], x[n-2], y[n-1], y[n-2]}` per stage
into per-stage state records, 4 values per stage. -/
def parseS : Nat → List ℚ → List St
  | 0, _ => []
  | n + 1, st =>
    ⟨st.getD 0 0, st.getD 1 0, st.getD 2 0, st.getD 3 0⟩ :: parseS n (st.drop 4)

/-- Write the per-stage state records back into the flat state layout. -/
def flattenStates : List St → List ℚ
  | [] => []
  | s :: rest => s.x1 :: s.x2 :: s.y1 :: s.y2 :: flattenStates rest

/-- The per-stage view of a filter instance: coefficients zipped with
delay states. -/
def stagesOf (numStages : Nat) (coeffs st : List ℚ) : List (Coeffs × St) :=
  (parseC numStages coeffs).zip (parseS numStages st)

/-- Conversion applied when the C++ code passes an `int` to a `uint32_t`
parameter (CMSIS `numStages`). -/
def uint32OfInt (s : Int) : Nat := (s % 2 ^ 32).toNat

/-- Modelled from the spec: `arm_biquad_cascade_df1_f32` (CMSIS-DSP library,
not part of this repository).  Per the spec and the state/coefficient layout
comments quoted in `BiquadFilter.hpp`, it filters the block through
`numStages` direct-form-1 biquad stages in cascade, using 5 coefficients and
4 state values per stage, updates the state array, and leaves the
coefficients untouched.  Returns the output block and the updated flat state
array (of length `4*numStages`). -/
def arm_biquad_cascade_df1_f32 (numStages : Nat) (coeffs st xs : List ℚ) :
    List ℚ × List ℚ :=
  let r := stageMajorP (stagesOf numStages coeffs st) xs
  (r.1, flattenStates r.2)

/-- Contents of the CMSIS `arm_biquad_casd_df1_inst_f32` structure while it
is still uninitialised (before the first `setCoefficents` call): whatever
stage count, coefficient values and state values those indeterminate bytes
happen to represent. -/
structure DF1Junk where
  numStages : Nat
  coeffs : List ℚ
  st : List ℚ
deriving DecidableEq

/-- The `BiquadFilter` class state: stage count, the borrowed coefficient
pointer (`NULL` after construction, modelled as `none`), the contents of the
`malloc`ed state array, and the indeterminate contents of the `df1` instance
before the first install. -/
structure BiquadFilter where
  stages : Int
  coefficients : Option (List ℚ)
  state : List ℚ
  df1junk : DF1Junk
deriving DecidableEq

/-- `BiquadFilter::init(int s)`: stores the stage count, sets the
coefficient pointer to `NULL`, and `malloc`s `stages*4` floats of state.
`mallocJunk` is whatever the fresh allocation happens to contain (`malloc`
does not zero memory), and `j` is the indeterminate content of the
uninitialised `df1` member. -/
def BiquadFilter.init (s : Int) (mallocJunk : List ℚ) (j : DF1Junk) :
    BiquadFilter :=
  ⟨s, none, mallocJunk, j⟩

/-- `BiquadFilter::setCoefficents(float*)`: binds the coefficient pointer
and calls `arm_biquad_cascade_df1_init_f32`, which (modelled from the spec
and the source comment "note: this also clears the state buffer") zeroes the
`4*numStages` state values. -/
def BiquadFilter.setCoefficents (f : BiquadFilter) (coeffs : List ℚ) :
    BiquadFilter :=
  { f with
    coefficients := some coeffs,
    state :=
      List.replicate (4 * uint32OfInt f.stages) 0 ++
        f.state.drop (4 * uint32OfInt f.stages) }

/-- `BiquadFilter::process`: unconditionally calls
`arm_biquad_cascade_df1_f32` on the installed instance.  If no coefficients
were ever installed the `df1` structure is still uninitialised, so the call
reads the indeterminate `df1junk` contents instead (no guard exists in the
source); writes through the indeterminate state pointer are not modelled.
Both C++ overloads perform this same computation; the buffer-aliasing
question they raise is modelled separately by `cascadeMem`. -/
def BiquadFilter.process (f : BiquadFilter) (buf : List ℚ) :
    List ℚ × BiquadFilter :=
  match f.coefficients with
  | some cs =>
    let r := arm_biquad_cascade_df1_f32 (uint32OfInt f.stages) cs f.state buf
    (r.1, { f with state := r.2 ++ f.state.drop (4 * uint32OfInt f.stages) })
  | none =>
    ((arm_biquad_cascade_df1_f32 f.df1junk.numStages f.df1junk.coeffs
        f.df1junk.st buf).1, f)

/-- Outcome of running the constructor `BiquadFilter(int)` viewed in an
error monad: the constructor has no failure path in the source (no check of
its argument, no exception), so it always yields a filter.  Used to compare
the code against the spec's demand that bad stage counts be rejected. -/
def BiquadFilter.initOutcome (s : Int) (mallocJunk : List ℚ) (j : DF1Junk) :
    Option BiquadFilter :=
  some (BiquadFilter.init s mallocJunk j)

/-- Outcome of `setCoefficents` viewed in an error monad: the source
receives a bare `float*` with no length information and performs no check,
so the call always succeeds. -/
def BiquadFilter.setCoefficentsOutcome (f : BiquadFilter) (coeffs : List ℚ) :
    Option BiquadFilter :=
  some (f.setCoefficents coeffs)

/-- The shared antialiasing coefficient table (`static float coeffs[10]` in
`Oversampler::Oversampler`), two stages of 5 values each. -/
def antialiasCoeffs : List ℚ :=
  [0.00319706223776298, 0.00452624091396112, 0.00319706223776297,
   1.54996539093296581, -0.88904312844649880,
   1.00000000000000000, 0.04671345292281195, 1.00000000000000222,
   1.63596919736817048, -0.71895330675421443]

/-- The `Oversampler` class state: the two 2-stage filters and the contents
of the `malloc`ed scratch buffer (`oversampled`, `blocksize*4` floats). -/
structure Oversampler where
  upfilter : BiquadFilter
  downfilter : BiquadFilter
  oversampled : List ℚ
deriving DecidableEq

/-- `Oversampler::Oversampler(int blocksize)`: builds two 2-stage filters,
installs the same antialiasing coefficient table into both (separate state),
and `malloc`s the scratch buffer.  `upJunk`, `downJunk`, `jUp`, `jDown` and
`scratchJunk` are the indeterminate contents of the three fresh allocations
and of the two uninitialised `df1` members; `scratchJunk` stands for the
`blocksize*4` floats of the scratch buffer. -/
def Oversampler.construct (blocksize : Int) (upJunk downJunk : List ℚ)
    (jUp jDown : DF1Junk) (scratchJunk : List ℚ) : Oversampler :=
  ⟨(BiquadFilter.init 2 upJunk jUp).setCoefficents antialiasCoeffs,
   (BiquadFilter.init 2 downJunk jDown).setCoefficents antialiasCoeffs,
   scratchJunk⟩

/-- The zero-stuffing loop body of `Oversampler::upsample`: for each input
sample write `buf[i]*4` followed by three zeros. -/
def zeroStuff (buf : List ℚ) : List ℚ :=
  (buf.map fun x => [x * 4, 0, 0, 0]).flatten

/-- `Oversampler::upsample(float* buf, int sz)` with `sz = buf.length`:
zero-stuff `buf` into the first `4*sz` scratch positions, filter those
`4*sz` samples in place with `upfilter`, and return the scratch buffer. -/
def Oversampler.upsample (os : Oversampler) (buf : List ℚ) :
    List ℚ × Oversampler :=
  let stuffed := zeroStuff buf
  let r := os.upfilter.process stuffed
  let scratch := r.1 ++ os.oversampled.drop (4 * buf.length)
  (scratch, ⟨r.2, os.downfilter, scratch⟩)

/-- `Oversampler::downsample(float* buf, int sz)`: filter the first `4*sz`
scratch samples in place with `downfilter`, then copy every 4th sample into
the caller's buffer and return that buffer. -/
def Oversampler.downsample (os : Oversampler) (sz : Nat) :
    List ℚ × Oversampler :=
  let r := os.downfilter.process (os.oversampled.take (4 * sz))
  let scratch := r.1 ++ os.oversampled.drop (4 * sz)
  let buf := (List.range sz).map fun i => scratch.getD (4 * i) 0
  (buf, ⟨os.upfilter, r.2, scratch⟩)

/-- Read `n` consecutive samples of a memory starting at address `si`. -/
def readRegion (mem : Nat → ℚ) : Nat → Nat → List ℚ
  | _, 0 => []
  | si, n + 1 => mem si :: readRegion mem (si + 1) n

/-- Store one sample at one address of a memory. -/
def writeMem (mem : Nat → ℚ) (a : Nat) (v : ℚ) : Nat → ℚ :=
  fun k => if k = a then v else mem k

/-- Pointer-level model of one stage of the CMSIS kernel: for each of `n`
samples, read `*pIn++` from the source region starting at `si`, run the
direct-form-1 step, and write the result to `*pOut++` in the destination
region starting at `di`.  Source and destination may alias. -/
def stageRunMem (c : Coeffs) : St → (Nat → ℚ) → Nat → Nat → Nat →
    (Nat → ℚ) × St
  | s, mem, _, _, 0 => (mem, s)
  | s, mem, si, di, n + 1 =>
    let r := stageStep c s (mem si)
    stageRunMem c r.2 (writeMem mem di r.1) (si + 1) (di + 1) n

/-- Pointer-level model of the whole CMSIS cascade: the first stage runs
from the source region to the destination region, and every later stage
runs on the destination region in place (as `arm_biquad_cascade_df1_f32`
does after its first stage). -/
def cascadeMem : List (Coeffs × St) → (Nat → ℚ) → Nat → Nat → Nat →
    (Nat → ℚ) × List St
  | [], mem, _, _, _ => (mem, [])
  | p :: rest, mem, si, di, n =>
    let r1 := stageRunMem p.1 p.2 mem si di n
    let r2 := cascadeMem rest r1.1 di di n
    (r2.1, r1.2 :: r2.2)

/-- A small concrete oversampler used to instantiate universally quantified
theorems on concrete data (its filters deliberately use simple one-stage
coefficients so that concrete evaluation stays small; the theorems
quantify over every `Oversampler` value). -/
def sampleOversampler : Oversampler :=
  ⟨⟨1, some [1, 0, 0, 0, 0], [0, 0, 0, 0], ⟨0, [], []⟩⟩,
   ⟨1, some [2, 0, 0, 0, 0], [0, 0, 0, 0], ⟨0, [], []⟩⟩,
   [5, 6, 7, 8]⟩

/-- A concrete memory holding 1 at address 0 and 0 elsewhere. -/
def memOne : Nat → ℚ := fun k => if k = 0 then 1 else 0

/-! ### Basic equations and lengths -/

@[simp] lemma stageRun_nil (c : Coeffs) (s : St) : stageRun c s [] = ([], s) := rfl

@[simp] lemma stageRun_cons (c : Coeffs) (s : St) (x : ℚ) (xs : List ℚ) :
    stageRun c s (x :: xs) =
      ((stageStep c s x).1 :: (stageRun c (stageStep c s x).2 xs).1,
       (stageRun c (stageStep c s x).2 xs).2) := rfl

lemma stageRun_length (c : Coeffs) (s : St) (xs : List ℚ) :
    (stageRun c s xs).1.length = xs.length := by
  induction xs generalizing s with
  | nil => rfl
  | cons x xs ih => simp [ih]

@[simp] lemma stageMajorP_nil (xs : List ℚ) : stageMajorP [] xs = (xs, []) := rfl

@[simp] lemma stageMajorP_cons (p : Coeffs × St) (rest : List (Coeffs × St))
    (xs : List ℚ) :
    stageMajorP (p :: rest) xs =
      ((stageMajorP rest (stageRun p.1 p.2 xs).1).1,
       (stageRun p.1 p.2 xs).2 :: (stageMajorP rest (stageRun p.1 p.2 xs).1).2) :=
  rfl

lemma stageMajorP_length (sl : List (Coeffs × St)) (xs : List ℚ) :
    (stageMajorP sl xs).1.length = xs.length := by
  induction sl generalizing xs with
  | nil => rfl
  | cons p rest ih => simp [ih, stageRun_length]

lemma stageMajorP_states_length (sl : List (Coeffs × St)) (xs : List ℚ) :
    (stageMajorP sl xs).2.length = sl.length := by
  induction sl generalizing xs with
  | nil => rfl
  | cons p rest ih => simp [ih]

lemma stageRun_append (c : Coeffs) (s : St) (xs ys : List ℚ) :
    stageRun c s (xs ++ ys) =
      ((stageRun c s xs).1 ++ (stageRun c (stageRun c s xs).2 ys).1,
       (stageRun c (stageRun c s xs).2 ys).2) := by
  induction xs generalizing s with
  | nil => simp
  | cons x xs ih => simp [ih]

lemma stageMajorP_append (sl : List (Coeffs × St)) (xs ys : List ℚ) :
    stageMajorP sl (xs ++ ys) =
      ((stageMajorP sl xs).1 ++
         (stageMajorP ((sl.map Prod.fst).zip (stageMajorP sl xs).2) ys).1,
       (stageMajorP ((sl.map Prod.fst).zip (stageMajorP sl xs).2) ys).2) := by
  induction sl generalizing xs ys with
  | nil => simp
  | cons p rest ih =>
    simp only [stageMajorP_cons, List.map_cons, List.zip_cons_cons, stageRun_append]
    rw [ih]

/-! ### Stage-major versus sample-major evaluation -/

@[simp] lemma sampleSt_nil (x : ℚ) : sampleSt [] x = (x, []) := rfl

@[simp] lemma sampleSt_cons (p : Coeffs × St) (rest : List (Coeffs × St)) (x : ℚ) :
    sampleSt (p :: rest) x =
      ((sampleSt rest (stageStep p.1 p.2 x).1).1,
       (stageStep p.1 p.2 x).2 :: (sampleSt rest (stageStep p.1 p.2 x).1).2) := rfl

@[simp] lemma sampleMajor_nil_input (sl : List (Coeffs × St)) :
    sampleMajor sl [] = ([], sl.map Prod.snd) := rfl

@[simp] lemma sampleMajor_cons_input (sl : List (Coeffs × St)) (x : ℚ)
    (xs : List ℚ) :
    sampleMajor sl (x :: xs) =
      ((sampleSt sl x).1 ::
         (sampleMajor ((sl.map Prod.fst).zip (sampleSt sl x).2) xs).1,
       (sampleMajor ((sl.map Prod.fst).zip (sampleSt sl x).2) xs).2) := rfl

lemma sampleMajor_nil_stage (xs : List ℚ) : sampleMajor [] xs = (xs, []) := by
  induction xs with
  | nil => rfl
  | cons x xs ih => simp [ih]

lemma sampleMajor_cons_stage (c : Coeffs) (s : St) (rest : List (Coeffs × St))
    (xs : List ℚ) :
    sampleMajor ((c, s) :: rest) xs =
      ((sampleMajor rest (stageRun c s xs).1).1,
       (stageRun c s xs).2 :: (sampleMajor rest (stageRun c s xs).1).2) := by
  induction xs generalizing s rest with
  | nil => simp
  | cons x xs ih =>
    simp only [sampleMajor_cons_input, sampleSt_cons, List.map_cons,
      List.zip_cons_cons, stageRun_cons]
    rw [ih]

/-- The CMSIS stage-major block evaluation computes exactly the sample-major
cascade the specification describes. -/
lemma stageMajorP_eq_sampleMajor (sl : List (Coeffs × St)) (xs : List ℚ) :
    stageMajorP sl xs = sampleMajor sl xs := by
  induction sl generalizing xs with
  | nil => rw [sampleMajor_nil_stage, stageMajorP_nil]
  | cons p rest ih =>
    obtain ⟨c, s⟩ := p
    rw [sampleMajor_cons_stage, stageMajorP_cons, ih]

/-! ### Parsing and flattening the flat coefficient and state arrays -/

lemma parseC_length (n : Nat) (cs : List ℚ) : (parseC n cs).length = n := by
  induction n generalizing cs with
  | zero => rfl
  | succ n ih => simp [parseC, ih]

lemma parseS_length (n : Nat) (st : List ℚ) : (parseS n st).length = n := by
  induction n generalizing st with
  | zero => rfl
  | succ n ih => simp [parseS, ih]

lemma stagesOf_length (n : Nat) (cs st : List ℚ) :
    (stagesOf n cs st).length = n := by
  simp [stagesOf, List.length_zip, parseC_length, parseS_length]

lemma stagesOf_map_fst (n : Nat) (cs st : List ℚ) :
    (stagesOf n cs st).map Prod.fst = parseC n cs := by
  apply List.map_fst_zip
  simp [parseC_length, parseS_length]

lemma flattenStates_length (ss : List St) :
    (flattenStates ss).length = 4 * ss.length := by
  induction ss with
  | nil => rfl
  | cons s rest ih => simp [flattenStates, ih]; ring

lemma parseS_flatten (ss : List St) (tail : List ℚ) :
    parseS ss.length (flattenStates ss ++ tail) = ss := by
  induction ss with
  | nil => rfl
  | cons s rest ih => simp [flattenStates, parseS, ih]

lemma flattenStates_append_drop (ss : List St) (tail : List ℚ) :
    (flattenStates ss ++ tail).drop (4 * ss.length) = tail := by
  rw [List.drop_append_of_le_length (by rw [flattenStates_length])]
  rw [← flattenStates_length, List.drop_length, List.nil_append]

/-! ### All-zero state and all-zero input -/

lemma stageStep_zero (c : Coeffs) : stageStep c zeroSt 0 = (0, zeroSt) := by
  simp [stageStep, zeroSt]

lemma stageRun_zero (c : Coeffs) (n : Nat) :
    stageRun c zeroSt (List.replicate n 0) = (List.replicate n 0, zeroSt) := by
  induction n with
  | zero => rfl
  | succ n ih => simp [List.replicate_succ, stageStep_zero, ih]

lemma stageMajorP_zero (m k : Nat) (cs : List ℚ) :
    stageMajorP ((parseC m cs).zip (List.replicate m zeroSt))
        (List.replicate k 0) =
      (List.replicate k 0, List.replicate m zeroSt) := by
  induction m generalizing cs with
  | zero => rfl
  | succ m ih =>
    simp [parseC, List.replicate_succ, stageRun_zero, ih]

lemma parseS_replicate_zero (n : Nat) (tail : List ℚ) :
    parseS n (List.replicate (4 * n) 0 ++ tail) = List.replicate n zeroSt := by
  induction n generalizing tail with
  | zero => rfl
  | succ n ih =>
    have h : 4 * (n + 1) = 4 * n + 1 + 1 + 1 + 1 := by ring
    rw [h]
    simp only [List.replicate_succ, List.cons_append]
    simp [parseS, zeroSt, ih]

/-! ### Zero-stuffing -/

lemma zeroStuff_cons (x : ℚ) (t : List ℚ) :
    zeroStuff (x :: t) = x * 4 :: 0 :: 0 :: 0 :: zeroStuff t := by
  simp [zeroStuff]

lemma zeroStuff_length (buf : List ℚ) : (zeroStuff buf).length = 4 * buf.length := by
  induction buf with
  | nil => rfl
  | cons x t ih => simp [zeroStuff_cons, ih]; ring

lemma getD_cons4 (a b c d e : ℚ) (l : List ℚ) (m : Nat) :
    (a :: b :: c :: d :: l).getD (m + 4) e = l.getD m e := rfl

lemma zeroStuff_getD (buf : List ℚ) (i : Nat) (hi : i < buf.length) :
    (zeroStuff buf).getD (4 * i) 0 = buf.getD i 0 * 4 ∧
    (zeroStuff buf).getD (4 * i + 1) 0 = 0 ∧
    (zeroStuff buf).getD (4 * i + 2) 0 = 0 ∧
    (zeroStuff buf).getD (4 * i + 3) 0 = 0 := by
  induction buf generalizing i with
  | nil => simp at hi
  | cons x t ih =>
    cases i with
    | zero => simp [zeroStuff_cons]
    | succ i =>
      have ht : i < t.length := by simpa using hi
      have e0 : 4 * (i + 1) = 4 * i + 4 := by ring
      have e1 : 4 * i + 4 + 1 = 4 * i + 1 + 4 := by ring
      have e2 : 4 * i + 4 + 2 = 4 * i + 2 + 4 := by ring
      have e3 : 4 * i + 4 + 3 = 4 * i + 3 + 4 := by ring
      rw [zeroStuff_cons, e0, e1, e2, e3, getD_cons4, getD_cons4, getD_cons4,
        getD_cons4, List.getD_cons_succ]
      exact ih i ht

lemma range_map_getD (g : Nat → ℚ) (sz i : Nat) (hi : i < sz) :
    ((List.range sz).map g).getD i 0 = g i := by
  have hlen : i < ((List.range sz).map g).length := by simpa using hi
  rw [List.getD_eq_getElem _ _ hlen]
  simp

/-! ### The `BiquadFilter` class operations -/

lemma process_installed (f : BiquadFilter) (cs : List ℚ) (buf : List ℚ)
    (hc : f.coefficients = some cs) :
    f.process buf =
      ((stageMajorP (stagesOf (uint32OfInt f.stages) cs f.state) buf).1,
       { f with
         state :=
           flattenStates
               (stageMajorP (stagesOf (uint32OfInt f.stages) cs f.state) buf).2 ++
             f.state.drop (4 * uint32OfInt f.stages) }) := by
  simp [BiquadFilter.process, hc, arm_biquad_cascade_df1_f32]

lemma process_uninstalled (f : BiquadFilter) (buf : List ℚ)
    (hc : f.coefficients = none) :
    f.process buf =
      ((arm_biquad_cascade_df1_f32 f.df1junk.numStages f.df1junk.coeffs
          f.df1junk.st buf).1, f) := by
  simp [BiquadFilter.process, hc]

lemma process_preserves (f : BiquadFilter) (buf : List ℚ) :
    (f.process buf).2.coefficients = f.coefficients ∧
    (f.process buf).2.stages = f.stages ∧
    (f.process buf).2.df1junk = f.df1junk := by
  cases hc : f.coefficients <;> simp [BiquadFilter.process, hc]

/-! ### Pointer-level kernel versus the list model -/

@[simp] lemma readRegion_zero (mem : Nat → ℚ) (si : Nat) :
    readRegion mem si 0 = [] := rfl

@[simp] lemma readRegion_succ (mem : Nat → ℚ) (si n : Nat) :
    readRegion mem si (n + 1) = mem si :: readRegion mem (si + 1) n := rfl

lemma readRegion_congr (m1 m2 : Nat → ℚ) (si n : Nat)
    (h : ∀ i, i < n → m1 (si + i) = m2 (si + i)) :
    readRegion m1 si n = readRegion m2 si n := by
  induction n generalizing si with
  | zero => rfl
  | succ n ih =>
    rw [readRegion_succ, readRegion_succ]
    congr 1
    · simpa using h 0 (Nat.succ_pos n)
    · refine ih (si + 1) fun i hi => ?_
      have e : si + 1 + i = si + (i + 1) := by omega
      rw [e]
      exact h (i + 1) (by omega)

@[simp] lemma stageRunMem_zero (c : Coeffs) (s : St) (mem : Nat → ℚ)
    (si di : Nat) : stageRunMem c s mem si di 0 = (mem, s) := rfl

@[simp] lemma stageRunMem_succ (c : Coeffs) (s : St) (mem : Nat → ℚ)
    (si di n : Nat) :
    stageRunMem c s mem si di (n + 1) =
      stageRunMem c (stageStep c s (mem si)).2
        (writeMem mem di (stageStep c s (mem si)).1) (si + 1) (di + 1) n := rfl

lemma writeMem_same (mem : Nat → ℚ) (a : Nat) (v : ℚ) : writeMem mem a v a = v := by
  simp [writeMem]

lemma writeMem_other (mem : Nat → ℚ) (a k : Nat) (v : ℚ) (h : k ≠ a) :
    writeMem mem a v k = mem k := by
  simp [writeMem, h]

/-- One stage of the pointer-level kernel agrees with the list model as long
as no write lands on a source position that is still to be read (each write
`di + i` precedes exactly the reads `si + j` with `j > i`).  Both the
aliased call (`di = si`) and a call on disjoint regions satisfy this. -/
lemma stageRunMem_spec (c : Coeffs) (n : Nat) :
    ∀ (s : St) (mem : Nat → ℚ) (si di : Nat),
      (∀ i j, i < j → j < n → di + i ≠ si + j) →
      (stageRunMem c s mem si di n).2 = (stageRun c s (readRegion mem si n)).2 ∧
      readRegion (stageRunMem c s mem si di n).1 di n =
        (stageRun c s (readRegion mem si n)).1 ∧
      ∀ a, (∀ i, i < n → a ≠ di + i) → (stageRunMem c s mem si di n).1 a = mem a := by
  induction n with
  | zero => intro s mem si di _; exact ⟨rfl, rfl, fun a _ => rfl⟩
  | succ n ih =>
    intro s mem si di H
    have H' : ∀ i j, i < j → j < n → di + 1 + i ≠ si + 1 + j := by
      intro i j hij hj
      have := H (i + 1) (j + 1) (by omega) (by omega)
      omega
    obtain ⟨ihst, ihreg, ihfr⟩ :=
      ih (stageStep c s (mem si)).2 (writeMem mem di (stageStep c s (mem si)).1)
        (si + 1) (di + 1) H'
    have hkeep : readRegion (writeMem mem di (stageStep c s (mem si)).1)
        (si + 1) n = readRegion mem (si + 1) n := by
      refine readRegion_congr _ _ _ _ fun i hi => ?_
      refine writeMem_other _ _ _ _ ?_
      have := H 0 (i + 1) (by omega) (by omega)
      omega
    refine ⟨?_, ?_, ?_⟩
    · rw [stageRunMem_succ, ihst, hkeep, readRegion_succ, stageRun_cons]
    · have hdi : (stageRunMem c (stageStep c s (mem si)).2
          (writeMem mem di (stageStep c s (mem si)).1) (si + 1) (di + 1) n).1 di =
          (stageStep c s (mem si)).1 := by
        rw [ihfr di (fun i hi => by omega), writeMem_same]
      rw [stageRunMem_succ, readRegion_succ, hdi, ihreg, hkeep,
        readRegion_succ, stageRun_cons]
    · intro a ha
      rw [stageRunMem_succ,
        ihfr a (fun i hi => by have := ha (i + 1) (by omega); omega),
        writeMem_other _ _ _ _ (by have := ha 0 (by omega); omega)]

@[simp] lemma cascadeMem_nil (mem : Nat → ℚ) (si di n : Nat) :
    cascadeMem [] mem si di n = (mem, []) := rfl

@[simp] lemma cascadeMem_cons (p : Coeffs × St) (rest : List (Coeffs × St))
    (mem : Nat → ℚ) (si di n : Nat) :
    cascadeMem (p :: rest) mem si di n =
      ((cascadeMem rest (stageRunMem p.1 p.2 mem si di n).1 di di n).1,
       (stageRunMem p.1 p.2 mem si di n).2 ::
         (cascadeMem rest (stageRunMem p.1 p.2 mem si di n).1 di di n).2) := rfl

/-- The aliased cascade (in-place call pattern, `src = dst`) agrees with the
list model. -/
lemma cascadeMem_aliased (sl : List (Coeffs × St)) :
    ∀ (mem : Nat → ℚ) (d n : Nat),
      (cascadeMem sl mem d d n).2 = (stageMajorP sl (readRegion mem d n)).2 ∧
      readRegion (cascadeMem sl mem d d n).1 d n =
        (stageMajorP sl (readRegion mem d n)).1 ∧
      ∀ a, (∀ i, i < n → a ≠ d + i) → (cascadeMem sl mem d d n).1 a = mem a := by
  induction sl with
  | nil => intro mem d n; exact ⟨rfl, rfl, fun a _ => rfl⟩
  | cons p rest ih =>
    intro mem d n
    have Hal : ∀ i j, i < j → j < n → d + i ≠ d + j := fun i j hij hj => by omega
    obtain ⟨h1st, h1reg, h1fr⟩ := stageRunMem_spec p.1 n p.2 mem d d Hal
    obtain ⟨h2st, h2reg, h2fr⟩ := ih (stageRunMem p.1 p.2 mem d d n).1 d n
    refine ⟨?_, ?_, ?_⟩
    · simp only [cascadeMem_cons, stageMajorP_cons]
      rw [h1st, h2st, h1reg]
    · simp only [cascadeMem_cons, stageMajorP_cons]
      rw [h2reg, h1reg]
    · intro a ha
      simp only [cascadeMem_cons]
      rw [h2fr a ha, h1fr a ha]

/-- The two-buffer cascade (distinct source and destination call pattern)
agrees with the list model, for at least one stage and non-clobbering
regions. -/
lemma cascadeMem_twobuf (p : Coeffs × St) (rest : List (Coeffs × St))
    (mem : Nat → ℚ) (src dst n : Nat)
    (H : ∀ i j, i < j → j < n → dst + i ≠ src + j) :
    (cascadeMem (p :: rest) mem src dst n).2 =
      (stageMajorP (p :: rest) (readRegion mem src n)).2 ∧
    readRegion (cascadeMem (p :: rest) mem src dst n).1 dst n =
      (stageMajorP (p :: rest) (readRegion mem src n)).1 := by
  obtain ⟨h1st, h1reg, h1fr⟩ := stageRunMem_spec p.1 n p.2 mem src dst H
  obtain ⟨h2st, h2reg, h2fr⟩ :=
    cascadeMem_aliased rest (stageRunMem p.1 p.2 mem src dst n).1 dst n
  constructor
  · simp only [cascadeMem_cons, stageMajorP_cons]
    rw [h1st, h2st, h1reg]
  · simp only [cascadeMem_cons, stageMajorP_cons]
    rw [h2reg, h1reg]

lemma stagesOf_flatten (n : Nat) (cs : List ℚ) (ss : List St) (tail : List ℚ)
    (hn : ss.length = n) :
    stagesOf n cs (flattenStates ss ++ tail) = (parseC n cs).zip ss := by
  subst hn
  rw [stagesOf, parseS_flatten]

/-- C1: with coefficients installed, `process` computes each output sample
by running the stages in cascade order (stage i's output is stage i+1's
input, the last stage's output is the cascade's output for that sample),
where each stage applies `y = b0*x + b1*x1 + b2*x2 - a1*y1 - a2*y2` with its
own coefficients `(b0, b1, b2, -a1, -a2)` and its own four-element history,
shifting that history exactly once per sample per stage: the block-wise
evaluation the code performs (`stageMajorP` inside `process`) equals the
sample-major direct-form-1 cascade `sampleMajor`, for outputs and for the
final delay state written back to the state array. -/
theorem biquad_process_direct_form_1_cascade (f : BiquadFilter)
    (cs buf : List ℚ) (hc : f.coefficients = some cs) :
    (f.process buf).1 =
      (sampleMajor (stagesOf (uint32OfInt f.stages) cs f.state) buf).1 ∧
    (f.process buf).2.state =
      flattenStates
          (sampleMajor (stagesOf (uint32OfInt f.stages) cs f.state) buf).2 ++
        f.state.drop (4 * uint32OfInt f.stages) := by
  rw [process_installed f cs buf hc, ← stageMajorP_eq_sampleMajor]
  exact ⟨rfl, rfl⟩

/-- C1 witness: a concrete one-stage filter with installed coefficients
`[1, 2, 3, 4, 5]` on the block `[1, 2]`. -/
theorem biquad_process_direct_form_1_cascade_witness :
    (BiquadFilter.mk 1 (some [1, 2, 3, 4, 5]) [0, 0, 0, 0]
        ⟨0, [], []⟩).coefficients = some [1, 2, 3, 4, 5] ∧
    (((BiquadFilter.mk 1 (some [1, 2, 3, 4, 5]) [0, 0, 0, 0]
          ⟨0, [], []⟩).process [1, 2]).1 =
        (sampleMajor (stagesOf
            (uint32OfInt (BiquadFilter.mk 1 (some [1, 2, 3, 4, 5]) [0, 0, 0, 0]
              ⟨0, [], []⟩).stages) [1, 2, 3, 4, 5]
            (BiquadFilter.mk 1 (some [1, 2, 3, 4, 5]) [0, 0, 0, 0]
              ⟨0, [], []⟩).state) [1, 2]).1 ∧
      ((BiquadFilter.mk 1 (some [1, 2, 3, 4, 5]) [0, 0, 0, 0]
          ⟨0, [], []⟩).process [1, 2]).2.state =
        flattenStates (sampleMajor (stagesOf
            (uint32OfInt (BiquadFilter.mk 1 (some [1, 2, 3, 4, 5]) [0, 0, 0, 0]
              ⟨0, [], []⟩).stages) [1, 2, 3, 4, 5]
            (BiquadFilter.mk 1 (some [1, 2, 3, 4, 5]) [0, 0, 0, 0]
              ⟨0, [], []⟩).state) [1, 2]).2 ++
          (BiquadFilter.mk 1 (some [1, 2, 3, 4, 5]) [0, 0, 0, 0]
            ⟨0, [], []⟩).state.drop
            (4 * uint32OfInt (BiquadFilter.mk 1 (some [1, 2, 3, 4, 5])
              [0, 0, 0, 0] ⟨0, [], []⟩).stages)) :=
  ⟨rfl, biquad_process_direct_form_1_cascade _ [1, 2, 3, 4, 5] [1, 2] rfl⟩

/-- C5: `setCoefficents` (the spec's `installCoefficients`) resets all delay
state to zero, regardless of any prior history and for every coefficient
view, so that processing an all-zero input block of any length immediately
afterwards yields an all-zero output block. -/
theorem biquad_install_resets_state (f : BiquadFilter) (cs : List ℚ) (n : Nat) :
    (f.setCoefficents cs).state.take (4 * uint32OfInt f.stages) =
      List.replicate (4 * uint32OfInt f.stages) 0 ∧
    ((f.setCoefficents cs).process (List.replicate n 0)).1 =
      List.replicate n 0 := by
  constructor
  · show (List.replicate (4 * uint32OfInt f.stages) (0 : ℚ) ++
        f.state.drop (4 * uint32OfInt f.stages)).take
          (4 * uint32OfInt f.stages) = _
    exact List.take_left' (by simp)
  · rw [process_installed (f.setCoefficents cs) cs _ rfl]
    have hst : stagesOf (uint32OfInt (f.setCoefficents cs).stages) cs
        (f.setCoefficents cs).state =
        (parseC (uint32OfInt f.stages) cs).zip
          (List.replicate (uint32OfInt f.stages) zeroSt) := by
      show stagesOf (uint32OfInt f.stages) cs
          (List.replicate (4 * uint32OfInt f.stages) 0 ++
            f.state.drop (4 * uint32OfInt f.stages)) = _
      rw [stagesOf, parseS_replicate_zero]
    rw [hst, stageMajorP_zero]

/-- C4: streaming continuity — with coefficients installed, processing
`xs` then `ys` in two `process` calls (no intervening install) produces the
same outputs, concatenated, and the exact same final filter (delay state
included) as one `process` call on `xs ++ ys`. -/
theorem biquad_process_streaming_split (f : BiquadFilter) (cs xs ys : List ℚ)
    (hc : f.coefficients = some cs) :
    (f.process (xs ++ ys)).1 =
      (f.process xs).1 ++ ((f.process xs).2.process ys).1 ∧
    (f.process (xs ++ ys)).2 = ((f.process xs).2.process ys).2 := by
  have hn : (stageMajorP (stagesOf (uint32OfInt f.stages) cs f.state) xs).2.length =
      uint32OfInt f.stages := by
    rw [stageMajorP_states_length, stagesOf_length]
  simp only [BiquadFilter.process, hc, arm_biquad_cascade_df1_f32]
  have happ := stageMajorP_append (stagesOf (uint32OfInt f.stages) cs f.state) xs ys
  rw [stagesOf_map_fst] at happ
  have hdrop := flattenStates_append_drop
      (stageMajorP (stagesOf (uint32OfInt f.stages) cs f.state) xs).2
      (List.drop (4 * uint32OfInt f.stages) f.state)
  rw [hn] at hdrop
  rw [stagesOf_flatten _ _ _ _ hn, happ, hdrop]
  exact ⟨rfl, rfl⟩

/-- C4 witness: the streaming-continuity theorem applied to a concrete
one-stage filter, splitting `[1, 2]` into `[1]` and `[2]`. -/
theorem biquad_process_streaming_split_witness :
    (BiquadFilter.mk 1 (some [1, 2, 3, 4, 5]) [0, 0, 0, 0]
        ⟨0, [], []⟩).coefficients = some [1, 2, 3, 4, 5] ∧
    (((BiquadFilter.mk 1 (some [1, 2, 3, 4, 5]) [0, 0, 0, 0]
          ⟨0, [], []⟩).process ([1] ++ [2])).1 =
        ((BiquadFilter.mk 1 (some [1, 2, 3, 4, 5]) [0, 0, 0, 0]
          ⟨0, [], []⟩).process [1]).1 ++
          ((((BiquadFilter.mk 1 (some [1, 2, 3, 4, 5]) [0, 0, 0, 0]
            ⟨0, [], []⟩).process [1]).2).process [2]).1 ∧
      ((BiquadFilter.mk 1 (some [1, 2, 3, 4, 5]) [0, 0, 0, 0]
          ⟨0, [], []⟩).process ([1] ++ [2])).2 =
        ((((BiquadFilter.mk 1 (some [1, 2, 3, 4, 5]) [0, 0, 0, 0]
          ⟨0, [], []⟩).process [1]).2).process [2]).2) :=
  ⟨rfl, biquad_process_streaming_split _ [1, 2, 3, 4, 5] [1] [2] rfl⟩

/-- C2: `upsample(buf, n)` writes `buf[i]*4` into scratch position `4*i`
and zeros into positions `4*i+1`, `4*i+2`, `4*i+3` for every `i < n`
(zero-stuffing with gain compensation by the factor 4), then runs the "up"
cascade in place over exactly those `4*n` scratch samples (the rest of the
scratch buffer is untouched), and returns the scratch buffer. -/
theorem oversampler_upsample_zero_stuffing (os : Oversampler) (buf : List ℚ)
    (i : Nat) (hi : i < buf.length) :
    (zeroStuff buf).getD (4 * i) 0 = buf.getD i 0 * 4 ∧
    (zeroStuff buf).getD (4 * i + 1) 0 = 0 ∧
    (zeroStuff buf).getD (4 * i + 2) 0 = 0 ∧
    (zeroStuff buf).getD (4 * i + 3) 0 = 0 ∧
    (zeroStuff buf).length = 4 * buf.length ∧
    (os.upsample buf).1 =
      (os.upfilter.process (zeroStuff buf)).1 ++
        os.oversampled.drop (4 * buf.length) ∧
    (os.upsample buf).2.oversampled = (os.upsample buf).1 ∧
    (os.upsample buf).2.upfilter = (os.upfilter.process (zeroStuff buf)).2 := by
  obtain ⟨h0, h1, h2, h3⟩ := zeroStuff_getD buf i hi
  exact ⟨h0, h1, h2, h3, zeroStuff_length buf, rfl, rfl, rfl⟩

/-- C2 witness: the upsample theorem applied to a concrete oversampler and
the one-sample buffer `[1]` at position 0. -/
theorem oversampler_upsample_zero_stuffing_witness :
    0 < ([1] : List ℚ).length ∧
    ((zeroStuff [1]).getD (4 * 0) 0 = ([1] : List ℚ).getD 0 0 * 4 ∧
     (zeroStuff [1]).getD (4 * 0 + 1) 0 = 0 ∧
     (zeroStuff [1]).getD (4 * 0 + 2) 0 = 0 ∧
     (zeroStuff [1]).getD (4 * 0 + 3) 0 = 0 ∧
     (zeroStuff [1]).length = 4 * ([1] : List ℚ).length ∧
     (sampleOversampler.upsample [1]).1 =
       (sampleOversampler.upfilter.process (zeroStuff [1])).1 ++
         sampleOversampler.oversampled.drop (4 * ([1] : List ℚ).length) ∧
     (sampleOversampler.upsample [1]).2.oversampled =
       (sampleOversampler.upsample [1]).1 ∧
     (sampleOversampler.upsample [1]).2.upfilter =
       (sampleOversampler.upfilter.process (zeroStuff [1])).2) :=
  ⟨by decide, oversampler_upsample_zero_stuffing sampleOversampler [1] 0 (by decide)⟩

/-- C3: `downsample(buf, n)` first runs the "down" cascade in place over
exactly the first `4*n` scratch samples (the rest of the scratch buffer is
untouched), then decimates by copying scratch position `4*i` into the
caller's buffer position `i` for every `i < n`, returning that buffer. -/
theorem oversampler_downsample_decimation (os : Oversampler) (sz i : Nat)
    (hi : i < sz) :
    (os.downsample sz).2.oversampled =
      (os.downfilter.process (os.oversampled.take (4 * sz))).1 ++
        os.oversampled.drop (4 * sz) ∧
    (os.downsample sz).1.length = sz ∧
    (os.downsample sz).1.getD i 0 =
      ((os.downsample sz).2.oversampled).getD (4 * i) 0 ∧
    (os.downsample sz).2.downfilter =
      (os.downfilter.process (os.oversampled.take (4 * sz))).2 := by
  refine ⟨rfl, by simp [Oversampler.downsample], ?_, rfl⟩
  exact range_map_getD _ sz i hi

/-- C3 witness: the downsample theorem applied to a concrete oversampler
with `sz = 1` at position 0. -/
theorem oversampler_downsample_decimation_witness :
    0 < 1 ∧
    ((sampleOversampler.downsample 1).2.oversampled =
       (sampleOversampler.downfilter.process
           (sampleOversampler.oversampled.take (4 * 1))).1 ++
         sampleOversampler.oversampled.drop (4 * 1) ∧
     (sampleOversampler.downsample 1).1.length = 1 ∧
     (sampleOversampler.downsample 1).1.getD 0 0 =
       ((sampleOversampler.downsample 1).2.oversampled).getD (4 * 0) 0 ∧
     (sampleOversampler.downsample 1).2.downfilter =
       (sampleOversampler.downfilter.process
           (sampleOversampler.oversampled.take (4 * 1))).2) :=
  ⟨by decide, oversampler_downsample_decimation sampleOversampler 1 0 (by decide)⟩

/-- C9: the oversampler's two cascades never share delay state — `upsample`
leaves `downfilter` entirely unchanged and changes nothing of `upfilter`
except its delay state, `downsample` leaves `upfilter` entirely unchanged
and changes nothing of `downfilter` except its delay state, and
construction installs the identical antialiasing coefficient view into both
filters. -/
theorem oversampler_disjoint_filter_state :
    (∀ (os : Oversampler) (buf : List ℚ),
      (os.upsample buf).2.downfilter = os.downfilter) ∧
    (∀ (os : Oversampler) (sz : Nat),
      (os.downsample sz).2.upfilter = os.upfilter) ∧
    (∀ (os : Oversampler) (buf : List ℚ),
      (os.upsample buf).2.upfilter.coefficients = os.upfilter.coefficients ∧
      (os.upsample buf).2.upfilter.stages = os.upfilter.stages) ∧
    (∀ (os : Oversampler) (sz : Nat),
      (os.downsample sz).2.downfilter.coefficients =
        os.downfilter.coefficients ∧
      (os.downsample sz).2.downfilter.stages = os.downfilter.stages) ∧
    (∀ (blocksize : Int) (upJunk downJunk : List ℚ) (jUp jDown : DF1Junk)
        (scratchJunk : List ℚ),
      (Oversampler.construct blocksize upJunk downJunk jUp jDown
          scratchJunk).upfilter.coefficients = some antialiasCoeffs ∧
      (Oversampler.construct blocksize upJunk downJunk jUp jDown
          scratchJunk).downfilter.coefficients = some antialiasCoeffs ∧
      (Oversampler.construct blocksize upJunk downJunk jUp jDown
          scratchJunk).upfilter.coefficients =
        (Oversampler.construct blocksize upJunk downJunk jUp jDown
          scratchJunk).downfilter.coefficients) := by
  refine ⟨fun os buf => rfl, fun os sz => rfl, fun os buf => ?_,
    fun os sz => ?_, fun bs uj dj jU jD sj => ⟨rfl, rfl, rfl⟩⟩
  · exact ⟨(process_preserves os.upfilter (zeroStuff buf)).1,
      (process_preserves os.upfilter (zeroStuff buf)).2.1⟩
  · exact ⟨(process_preserves os.downfilter (os.oversampled.take (4 * sz))).1,
      (process_preserves os.downfilter (os.oversampled.take (4 * sz))).2.1⟩

/-- C6 counterexample: `process` before any install is not guarded — its
result depends on the indeterminate contents of the uninitialised `df1`
instance (here, two filters that differ only in those indeterminate bytes
produce different outputs), so the call silently reads the uninstalled
storage instead of failing fast.  A guard on the determinate `NULL`
coefficient pointer would make the outcome independent of those bytes. -/
theorem biquad_unready_process_not_guarded_cex :
    ((BiquadFilter.init 1 [0, 0, 0, 0]
        ⟨1, [1, 0, 0, 0, 0], [0, 0, 0, 0]⟩).process [1]).1 ≠
      ((BiquadFilter.init 1 [0, 0, 0, 0]
        ⟨1, [2, 0, 0, 0, 0], [0, 0, 0, 0]⟩).process [1]).1 := by
  norm_num [BiquadFilter.process, BiquadFilter.init, arm_biquad_cascade_df1_f32,
    stagesOf, parseC, parseS, stageStep]

/-- C6 amended: invoking `process` before any `setCoefficents` call is not
guarded or reported; the call proceeds and silently computes from the
indeterminate contents of the uninitialised `df1` instance (undefined
result), exactly the documented precondition violation of spec section 9. -/
theorem biquad_unready_process_reads_junk (f : BiquadFilter) (buf : List ℚ)
    (hc : f.coefficients = none) :
    f.process buf =
      ((arm_biquad_cascade_df1_f32 f.df1junk.numStages f.df1junk.coeffs
          f.df1junk.st buf).1, f) :=
  process_uninstalled f buf hc

/-- C6 witness: the amended theorem applied to a concrete freshly
constructed (never installed) filter. -/
theorem biquad_unready_process_reads_junk_witness :
    (BiquadFilter.init 1 [0, 0, 0, 0]
        ⟨1, [1, 0, 0, 0, 0], [0, 0, 0, 0]⟩).coefficients = none ∧
    (BiquadFilter.init 1 [0, 0, 0, 0]
        ⟨1, [1, 0, 0, 0, 0], [0, 0, 0, 0]⟩).process [1] =
      ((arm_biquad_cascade_df1_f32
          (BiquadFilter.init 1 [0, 0, 0, 0]
            ⟨1, [1, 0, 0, 0, 0], [0, 0, 0, 0]⟩).df1junk.numStages
          (BiquadFilter.init 1 [0, 0, 0, 0]
            ⟨1, [1, 0, 0, 0, 0], [0, 0, 0, 0]⟩).df1junk.coeffs
          (BiquadFilter.init 1 [0, 0, 0, 0]
            ⟨1, [1, 0, 0, 0, 0], [0, 0, 0, 0]⟩).df1junk.st [1]).1,
       BiquadFilter.init 1 [0, 0, 0, 0]
         ⟨1, [1, 0, 0, 0, 0], [0, 0, 0, 0]⟩) :=
  ⟨rfl, biquad_unready_process_reads_junk _ [1] rfl⟩

/-- C7 counterexample: neither configuration error is rejected.  The
constructor called with stage count 0 yields a filter (not an error), and
installing an empty coefficient view on a 1-stage filter (length 0 instead
of the required 5) also succeeds; no check exists at construction or
install time. -/
theorem biquad_config_errors_not_rejected_cex :
    BiquadFilter.initOutcome 0 [] ⟨0, [], []⟩ =
      some (BiquadFilter.init 0 [] ⟨0, [], []⟩) ∧
    (BiquadFilter.init 1 [0, 0, 0, 0] ⟨0, [], []⟩).setCoefficentsOutcome [] =
      some ((BiquadFilter.init 1 [0, 0, 0, 0] ⟨0, [], []⟩).setCoefficents []) :=
  ⟨rfl, rfl⟩

/-- C7 amended: the code performs no validation — construction accepts any
stage count (including 0 and negative values) and always yields a filter,
and `setCoefficents` receives a bare pointer with no length information and
always succeeds; a stage count of at least 1 and a view length of
`5*stageCount` are caller preconditions. -/
theorem biquad_config_no_validation :
    (∀ (s : Int) (junk : List ℚ) (j : DF1Junk),
      BiquadFilter.initOutcome s junk j = some (BiquadFilter.init s junk j)) ∧
    (∀ (f : BiquadFilter) (cs : List ℚ),
      f.setCoefficentsOutcome cs = some (f.setCoefficents cs)) :=
  ⟨fun _ _ _ => rfl, fun _ _ => rfl⟩

/-- C8 counterexample: the delay state is not zero-initialised at
construction.  `malloc` leaves indeterminate contents, and with allocation
contents `[1, 0, 0, 0]` the freshly constructed one-stage filter's state is
not all zeros. -/
theorem biquad_construct_state_not_zeroed_cex :
    (BiquadFilter.init 1 [1, 0, 0, 0] ⟨0, [], []⟩).state ≠
      List.replicate 4 (0 : ℚ) := by
  decide

/-- C8 amended: construction stores the stage count, leaves no coefficients
bound, and allocates `4*stageCount` scalars of delay state whose contents
are the indeterminate `malloc` result (not zeroed); the state is first
zeroed by `setCoefficents`. -/
theorem biquad_construct_uninitialised_state (s : Int) (junk : List ℚ)
    (j : DF1Junk) (hlen : junk.length = 4 * uint32OfInt s) :
    (BiquadFilter.init s junk j).coefficients = none ∧
    (BiquadFilter.init s junk j).state = junk ∧
    (BiquadFilter.init s junk j).state.length = 4 * uint32OfInt s ∧
    (BiquadFilter.init s junk j).stages = s :=
  ⟨rfl, rfl, hlen, rfl⟩

/-- C8 witness: the amended construction theorem at stage count 1 with
allocation contents `[1, 0, 0, 0]`. -/
theorem biquad_construct_uninitialised_state_witness :
    ([1, 0, 0, 0] : List ℚ).length = 4 * uint32OfInt 1 ∧
    ((BiquadFilter.init 1 [1, 0, 0, 0] ⟨0, [], []⟩).coefficients = none ∧
     (BiquadFilter.init 1 [1, 0, 0, 0] ⟨0, [], []⟩).state = [1, 0, 0, 0] ∧
     (BiquadFilter.init 1 [1, 0, 0, 0] ⟨0, [], []⟩).state.length =
       4 * uint32OfInt 1 ∧
     (BiquadFilter.init 1 [1, 0, 0, 0] ⟨0, [], []⟩).stages = 1) :=
  ⟨by decide, biquad_construct_uninitialised_state 1 [1, 0, 0, 0] ⟨0, [], []⟩
    (by decide)⟩

lemma readRegion_shift (m : Nat → ℚ) (p src n : Nat)
    (h : ∀ i, i < n → m (p + i) = m (src + i)) :
    readRegion m p n = readRegion m src n := by
  induction n generalizing p src with
  | zero => rfl
  | succ n ih =>
    rw [readRegion_succ, readRegion_succ]
    congr 1
    · simpa using h 0 (Nat.succ_pos n)
    · refine ih (p + 1) (src + 1) fun i hi => ?_
      have e1 : p + 1 + i = p + (i + 1) := by omega
      have e2 : src + 1 + i = src + (i + 1) := by omega
      rw [e1, e2]
      exact h (i + 1) (by omega)

/-- C10: with coefficients installed (and at least one stage, as the data
model requires), the in-place overload `process(buf, size)` — the kernel
called with `pSrc = pDst` on the region starting at `p` — leaves in that
buffer exactly the sample values that the two-buffer overload
`process(input, output, size)` — the kernel called with disjoint source and
destination regions holding the same input samples — writes to the output
region; both agree with the list-model `process`, and both leave the filter
in the same final delay state. -/
theorem biquad_inplace_equals_twobuffer (f : BiquadFilter) (cs : List ℚ)
    (hc : f.coefficients = some cs) (hstages : 1 ≤ uint32OfInt f.stages)
    (mem : Nat → ℚ) (n src dst p : Nat)
    (hdisj : ∀ i j, i < n → j < n → dst + i ≠ src + j)
    (hagree : ∀ i, i < n → mem (p + i) = mem (src + i)) :
    readRegion
        (cascadeMem (stagesOf (uint32OfInt f.stages) cs f.state) mem p p n).1
        p n =
      readRegion
        (cascadeMem (stagesOf (uint32OfInt f.stages) cs f.state) mem src dst
          n).1 dst n ∧
    (cascadeMem (stagesOf (uint32OfInt f.stages) cs f.state) mem p p n).2 =
      (cascadeMem (stagesOf (uint32OfInt f.stages) cs f.state) mem src dst
        n).2 ∧
    readRegion
        (cascadeMem (stagesOf (uint32OfInt f.stages) cs f.state) mem p p n).1
        p n =
      (f.process (readRegion mem p n)).1 ∧
    flattenStates
        (cascadeMem (stagesOf (uint32OfInt f.stages) cs f.state) mem p p
          n).2 ++
        f.state.drop (4 * uint32OfInt f.stages) =
      (f.process (readRegion mem p n)).2.state := by
  obtain ⟨q, rest, hsl⟩ :
      ∃ q rest, stagesOf (uint32OfInt f.stages) cs f.state = q :: rest := by
    cases hsl' : stagesOf (uint32OfInt f.stages) cs f.state with
    | nil =>
      exfalso
      have hlen := stagesOf_length (uint32OfInt f.stages) cs f.state
      rw [hsl'] at hlen
      simp at hlen
      omega
    | cons q rest => exact ⟨q, rest, rfl⟩
  have hin : readRegion mem p n = readRegion mem src n :=
    readRegion_shift _ _ _ _ hagree
  have hdisj' : ∀ i j, i < j → j < n → dst + i ≠ src + j := fun i j hij hj =>
    hdisj i j (lt_trans hij hj) hj
  have hal :=
    cascadeMem_aliased (stagesOf (uint32OfInt f.stages) cs f.state) mem p n
  have htb := cascadeMem_twobuf q rest mem src dst n hdisj'
  rw [← hsl] at htb
  refine ⟨?_, ?_, ?_, ?_⟩
  · rw [hal.2.1, htb.2, hin]
  · rw [hal.1, htb.1, hin]
  · rw [hal.2.1, process_installed f cs _ hc]
  · rw [hal.1, process_installed f cs _ hc]

/-- C10 witness: a concrete one-stage filter, the memory `memOne`, one
sample, in-place region at 0 and two-buffer regions at 0 (source) and 10
(destination). -/
theorem biquad_inplace_equals_twobuffer_witness :
    ((BiquadFilter.mk 1 (some [1, 0, 0, 0, 0]) [0, 0, 0, 0]
        ⟨0, [], []⟩).coefficients = some [1, 0, 0, 0, 0] ∧
     1 ≤ uint32OfInt (BiquadFilter.mk 1 (some [1, 0, 0, 0, 0]) [0, 0, 0, 0]
        ⟨0, [], []⟩).stages) ∧
    (readRegion
        (cascadeMem
          (stagesOf
            (uint32OfInt (BiquadFilter.mk 1 (some [1, 0, 0, 0, 0])
              [0, 0, 0, 0] ⟨0, [], []⟩).stages) [1, 0, 0, 0, 0]
            (BiquadFilter.mk 1 (some [1, 0, 0, 0, 0]) [0, 0, 0, 0]
              ⟨0, [], []⟩).state) memOne 0 0 1).1 0 1 =
      readRegion
        (cascadeMem
          (stagesOf
            (uint32OfInt (BiquadFilter.mk 1 (some [1, 0, 0, 0, 0])
              [0, 0, 0, 0] ⟨0, [], []⟩).stages) [1, 0, 0, 0, 0]
            (BiquadFilter.mk 1 (some [1, 0, 0, 0, 0]) [0, 0, 0, 0]
              ⟨0, [], []⟩).state) memOne 0 10 1).1 10 1 ∧
     (cascadeMem
        (stagesOf
          (uint32OfInt (BiquadFilter.mk 1 (some [1, 0, 0, 0, 0])
            [0, 0, 0, 0] ⟨0, [], []⟩).stages) [1, 0, 0, 0, 0]
          (BiquadFilter.mk 1 (some [1, 0, 0, 0, 0]) [0, 0, 0, 0]
            ⟨0, [], []⟩).state) memOne 0 0 1).2 =
      (cascadeMem
        (stagesOf
          (uint32OfInt (BiquadFilter.mk 1 (some [1, 0, 0, 0, 0])
            [0, 0, 0, 0] ⟨0, [], []⟩).stages) [1, 0, 0, 0, 0]
          (BiquadFilter.mk 1 (some [1, 0, 0, 0, 0]) [0, 0, 0, 0]
            ⟨0, [], []⟩).state) memOne 0 10 1).2 ∧
     readRegion
        (cascadeMem
          (stagesOf
            (uint32OfInt (BiquadFilter.mk 1 (some [1, 0, 0, 0, 0])
              [0, 0, 0, 0] ⟨0, [], []⟩).stages) [1, 0, 0, 0, 0]
            (BiquadFilter.mk 1 (some [1, 0, 0, 0, 0]) [0, 0, 0, 0]
              ⟨0, [], []⟩).state) memOne 0 0 1).1 0 1 =
      ((BiquadFilter.mk 1 (some [1, 0, 0, 0, 0]) [0, 0, 0, 0]
          ⟨0, [], []⟩).process (readRegion memOne 0 1)).1 ∧
     flattenStates
        (cascadeMem
          (stagesOf
            (uint32OfInt (BiquadFilter.mk 1 (some [1, 0, 0, 0, 0])
              [0, 0, 0, 0] ⟨0, [], []⟩).stages) [1, 0, 0, 0, 0]
            (BiquadFilter.mk 1 (some [1, 0, 0, 0, 0]) [0, 0, 0, 0]
              ⟨0, [], []⟩).state) memOne 0 0 1).2 ++
        (BiquadFilter.mk 1 (some [1, 0, 0, 0, 0]) [0, 0, 0, 0]
          ⟨0, [], []⟩).state.drop
          (4 * uint32OfInt (BiquadFilter.mk 1 (some [1, 0, 0, 0, 0])
            [0, 0, 0, 0] ⟨0, [], []⟩).stages) =
      ((BiquadFilter.mk 1 (some [1, 0, 0, 0, 0]) [0, 0, 0, 0]
          ⟨0, [], []⟩).process (readRegion memOne 0 1)).2.state) :=
  ⟨⟨rfl, by decide⟩,
   biquad_inplace_equals_twobuffer _ [1, 0, 0, 0, 0] rfl (by decide) memOne 1
     0 10 0 (by intro i j hi hj; omega) (fun i _ => rfl)⟩
